import Mathlib

/-!
Verification model of the `chrono-cli` project detector
(`pkg/detector/detector.go`).

The detector is a deterministic, read-only filesystem scan.  We embed it
shallowly: the filesystem is a finite map from paths to file contents plus
a set of directories, Go string helpers are reimplemented over `List Char`,
and each Go function becomes a Lean function of the same name.
-/

/-! ## Go string primitives -/

/-- `startsWithAux pat s` is true when `pat` is a prefix of `s`. -/
def startsWithAux : List Char → List Char → Bool
  | [], _ => true
  | _ :: _, [] => false
  | p :: ps, x :: xs => p == x && startsWithAux ps xs

/-- Go `strings.HasPrefix s pre`. -/
def goStartsWith (s pre : String) : Bool :=
  startsWithAux pre.data s.data

/-- Go `strings.Contains s pat`: some suffix of `s` starts with `pat`. -/
def goContains (s pat : String) : Bool :=
  (List.tails s.data).any (fun t => startsWithAux pat.data t)

/-- Go `strings.ToLower` (ASCII-level model). -/
def goToLower (s : String) : String :=
  ⟨s.data.map Char.toLower⟩

/-- Trim whitespace from both ends of a character list. -/
def trimChars (l : List Char) : List Char :=
  ((l.dropWhile Char.isWhitespace).reverse.dropWhile Char.isWhitespace).reverse

/-- Go `strings.TrimSpace`. -/
def goTrimSpace (s : String) : String :=
  ⟨trimChars s.data⟩

/-- Drop characters of `cut` from both ends of a list. -/
def trimCutChars (cut : List Char) (l : List Char) : List Char :=
  ((l.dropWhile (fun c => cut.contains c)).reverse.dropWhile
    (fun c => cut.contains c)).reverse

/-- Go `strings.Trim s cutset`. -/
def goTrim (s : String) (cut : List Char) : String :=
  ⟨trimCutChars cut s.data⟩

/-- Split a character list at every occurrence of `c`
(Go `strings.Split` / `bytes.Split` semantics). -/
def splitCharAux (c : Char) : List Char → List Char → List (List Char)
  | [], acc => [acc.reverse]
  | x :: xs, acc =>
    if x == c then acc.reverse :: splitCharAux c xs []
    else splitCharAux c xs (x :: acc)

/-- Split a string on a single-character separator. -/
def goSplitChar (c : Char) (s : String) : List String :=
  (splitCharAux c s.data []).map (fun l => ⟨l⟩)

/-- Find the first occurrence of `c`; return the pieces before and after. -/
def splitFirstAux (c : Char) : List Char → List Char → Option (List Char × List Char)
  | [], _ => none
  | x :: xs, acc =>
    if x == c then some (acc.reverse, xs) else splitFirstAux c xs (x :: acc)

/-- Go `strings.SplitN s sep 2` for a single-character separator:
a one-element list when `sep` does not occur, otherwise the part before the
first occurrence and the remainder. -/
def goSplitN2 (c : Char) (s : String) : List String :=
  match splitFirstAux c s.data [] with
  | none => [s]
  | some (a, b) => [⟨a⟩, ⟨b⟩]

/-- The double-quote character. -/
def quoteChar : Char := Char.ofNat 34

/-- The single-quote character. -/
def aposChar : Char := Char.ofNat 39

/-- The comma character. -/
def commaChar : Char := Char.ofNat 44

/-- The newline character. -/
def nlChar : Char := Char.ofNat 10

/-! ## Filesystem model

A finite, read-only filesystem: a list of (path, content) files and a list
of directory paths.  `os.Stat` succeeds on either; `os.ReadFile`/`os.Open`
succeed only on files. -/

structure FS where
  files : List (String × String)
  dirs : List String
deriving DecidableEq

/-- Go `os.ReadFile`: the content of the file at `p`, if present. -/
def readFile (fs : FS) (p : String) : Option String :=
  (fs.files.find? (fun f => f.1 == p)).map (fun f => f.2)

/-- Go `os.Stat` succeeding: the path exists as a file or directory
(source helper `fileExists`). -/
def fileExists (fs : FS) (p : String) : Bool :=
  fs.files.any (fun f => f.1 == p) || fs.dirs.any (fun d => d == p)

/-- Go `filepath.Join` on two already-clean relative components. -/
def joinPath (a b : String) : String :=
  if a = "" then b else if b = "" then a else a ++ "/" ++ b

/-- Go `filepath.Base` (restricted to slash-separated paths). -/
def baseName (p : String) : String :=
  match (goSplitChar (Char.ofNat 47) p).filter (fun s => s ≠ "") with
  | [] => if p = "" then "." else "/"
  | x :: xs => (x :: xs).getLast (by simp)

/-! ## Detector data model (source `detector.go`) -/

/-- Source `ProjectType` constants. -/
inductive ProjectType where
  | frontend
  | backend
  | fullstack
  | unknown
deriving DecidableEq

/-- Association-list map with Go-map update semantics. -/
abbrev EnvMap := List (String × String)

/-- Go map assignment `m[k] = v`. -/
def insertKV : EnvMap → String → String → EnvMap
  | [], k, v => [(k, v)]
  | (k0, v0) :: rest, k, v =>
    if k0 = k then (k0, v) :: rest else (k0, v0) :: insertKV rest k v

/-- Go map read `m[k]`. -/
def lookupKV : EnvMap → String → Option String
  | [], _ => none
  | (k0, v0) :: rest, k => if k0 = k then some v0 else lookupKV rest k

/-- Source `TechStack`. -/
structure TechStack where
  Framework : String
  Language : String
  Version : String := ""
  Port : Nat := 0
  HasDockerfile : Bool := false
  Dockerfile : String := ""
  BuildCmd : String := ""
  StartCmd : String := ""
  EnvVars : EnvMap := []
deriving DecidableEq

/-- Source `Middleware`. -/
structure Middleware where
  MongoDB : Bool := false
  Redis : Bool := false
  Postgres : Bool := false
  MySQL : Bool := false
deriving DecidableEq

/-- Source `ProjectMetadata` (the source field `Type` is spelled `Typ`,
since `Type` is a Lean keyword). -/
structure ProjectMetadata where
  Name : String
  Typ : ProjectType
  DetectedAt : String
deriving DecidableEq

/-- Source `TechStackMap`. -/
structure TechStackMap where
  Frontend : Option TechStack
  Backend : Option TechStack
deriving DecidableEq

/-- Source `PlatformInfo`. -/
structure PlatformInfo where
  CreatedBy : String := ""
  Template : String := ""
deriving DecidableEq

/-- Source `Metadata`. -/
structure Metadata where
  Project : ProjectMetadata
  TechStack : TechStackMap
  Middleware : Middleware
  Platform : PlatformInfo := {}
deriving DecidableEq

/-- Source `timestamp()` (a stub returning `fmt.Sprintf` of 0). -/
def timestamp : String := "0"

/-! ## Dependency parsing (source `parseDependencies`, `hasDep`) -/

/-- One pass of the lenient line-oriented dependency scanner, carrying the
`inDeps` flag (source `parseDependencies` loop body). -/
def parseDepsLoop : List String → Bool → EnvMap → EnvMap
  | [], _, deps => deps
  | line :: rest, inDeps, deps =>
    let lineStr := goTrimSpace line
    if goStartsWith lineStr "\"dependencies\":" = true
        || goStartsWith lineStr "\x27dependencies\x27:" = true then
      parseDepsLoop rest true deps
    else if goStartsWith lineStr "\"devDependencies\":" = true
        || goStartsWith lineStr "\x27devDependencies\x27:" = true then
      parseDepsLoop rest true deps
    else
      let inD :=
        if inDeps = true
            && (goStartsWith lineStr "\x7d" || goStartsWith lineStr "]") = true
        then false else inDeps
      if inD = true then
        match goSplitN2 (Char.ofNat 58) lineStr with
        | [p0, p1] =>
          let name := goTrim (goTrimSpace p0) [quoteChar, aposChar]
          if name ≠ "" then
            parseDepsLoop rest inD
              (insertKV deps name
                (goTrim (goTrimSpace p1) [quoteChar, aposChar, commaChar]))
          else parseDepsLoop rest inD deps
        | _ => parseDepsLoop rest inD deps
      else parseDepsLoop rest inD deps

/-- Source `parseDependencies`: split on newlines, scan leniently. -/
def parseDependencies (content : String) : EnvMap :=
  parseDepsLoop (goSplitChar nlChar content) false []

/-- Source `hasDep`: exact key match, or some key has `name` as a prefix. -/
def hasDep (deps : EnvMap) (name : String) : Bool :=
  (lookupKV deps name).isSome || deps.any (fun d => goStartsWith d.1 name)

/-! ## Environment-variable harvesting (source `detectEnvVars`) -/

/-- The secret-suppression test from source `detectEnvVars`: the lowercased
key contains "secret", "password" or "key". -/
def sensitiveKey (key : String) : Bool :=
  goContains (goToLower key) "secret" || goContains (goToLower key) "password"
    || goContains (goToLower key) "key"

/-- One line of the env scanner loop (source `detectEnvVars` inner loop). -/
def processEnvLine (envVars : EnvMap) (raw : String) : EnvMap :=
  let line := goTrimSpace raw
  if line = "" ∨ goStartsWith line "#" = true then envVars
  else
    match goSplitN2 (Char.ofNat 61) line with
    | [p0, _p1] =>
      let key := goTrimSpace p0
      if sensitiveKey key = false then insertKV envVars key "[VALUE]"
      else envVars
    | _ => envVars

/-- Scan one env file's content line by line. -/
def scanEnvFile (envVars : EnvMap) (content : String) : EnvMap :=
  (goSplitChar nlChar content).foldl processEnvLine envVars

/-- Source `detectEnvVars`: harvest keys from every readable candidate. -/
def detectEnvVars (fs : FS) (root : String) (paths : List String) : EnvMap :=
  paths.foldl
    (fun envVars path =>
      match readFile fs (joinPath root path) with
      | none => envVars
      | some content => scanEnvFile envVars content)
    []

/-! ## Dockerfile lookup (source `findDockerfile`, `isValidDockerfile`) -/

/-- Source `isValidDockerfile`: raw substring check. -/
def isValidDockerfile (content : String) : Bool :=
  goContains content "FROM"
    && (goContains content "EXPOSE" || goContains content "CMD"
        || goContains content "ENTRYPOINT")

/-- Source `findDockerfile`: first existing, readable, valid candidate. -/
def findDockerfile (fs : FS) (root : String) : List String → String × Bool
  | [] => ("", false)
  | path :: rest =>
    if fileExists fs (joinPath root path) = true then
      match readFile fs (joinPath root path) with
      | some content =>
        if isValidDockerfile content = true then (path, true)
        else findDockerfile fs root rest
      | none => findDockerfile fs root rest
    else findDockerfile fs root rest

/-! ## Frontend detection (source `detectFrontend`) -/

/-- The framework/port priority switch from source `detectFrontend`. -/
def frontendChoice (deps : EnvMap) : Option (String × Nat) :=
  if hasDep deps "next" = true then some ("nextjs", 3000)
  else if (hasDep deps "react" || hasDep deps "react-dom") = true then
    some ("react", 3000)
  else if hasDep deps "vue" = true then some ("vue", 5173)
  else if hasDep deps "vite" = true then some ("vite", 5173)
  else if hasDep deps "svelte" = true then some ("svelte", 5173)
  else none

/-- Source `detectFrontend`. -/
def detectFrontend (fs : FS) (root : String) : Option TechStack :=
  if fileExists fs (joinPath root "package.json") = false then none
  else
    match readFile fs (joinPath root "package.json") with
    | none => none
    | some content =>
      let deps := parseDependencies content
      match frontendChoice deps with
      | none => none
      | some fw =>
        let language :=
          if (hasDep deps "typescript" || hasDep deps "@types/react"
              || hasDep deps "@types/node") = true
          then "typescript" else "javascript"
        let docker := findDockerfile fs root
          ["frontend/Dockerfile", "Dockerfile", "Dockerfile.frontend"]
        let envVars := detectEnvVars fs root
          ["frontend/.env", "frontend/.env.local", ".env", ".env.local"]
        some
          { Framework := fw.1
            Language := language
            Port := fw.2
            HasDockerfile := docker.2
            Dockerfile := docker.1
            BuildCmd := "npm run build"
            StartCmd := "npm start"
            EnvVars := envVars }

/-! ## Backend detection (source `detectBackend` and sub-detectors) -/

/-- Source `detectGoBackend`. -/
def detectGoBackend (fs : FS) (root : String) : TechStack :=
  let docker := findDockerfile fs root
    ["backend/Dockerfile", "Dockerfile", "Dockerfile.backend"]
  let envVars := detectEnvVars fs root ["backend/.env", ".env"]
  { Framework := "gin"
    Language := "go"
    Version := "1.22"
    Port := 8080
    HasDockerfile := docker.2
    Dockerfile := docker.1
    BuildCmd := "go build -o bin/server ./cmd/server"
    StartCmd := "./bin/server"
    EnvVars := envVars }

/-- Source `detectPythonBackend`. -/
def detectPythonBackend (fs : FS) (root : String) : TechStack :=
  let docker := findDockerfile fs root ["backend/Dockerfile", "Dockerfile"]
  let envVars := detectEnvVars fs root ["backend/.env", ".env"]
  { Framework := "fastapi"
    Language := "python"
    Port := 8000
    HasDockerfile := docker.2
    Dockerfile := docker.1
    BuildCmd := "pip install -r requirements.txt"
    StartCmd := "uvicorn main:app --host 0.0.0.0 --port 8000"
    EnvVars := envVars }

/-- The framework priority switch from source `detectNodeBackend`. -/
def nodeFramework (deps : EnvMap) : String :=
  if hasDep deps "fastify" = true then "fastify"
  else if hasDep deps "koa" = true then "koa"
  else "express"

/-- Source `detectNodeBackend`. -/
def detectNodeBackend (fs : FS) (root : String) (deps : EnvMap) : TechStack :=
  let docker := findDockerfile fs root
    ["backend/Dockerfile", "api/Dockerfile", "Dockerfile"]
  let envVars := detectEnvVars fs root ["backend/.env", ".env"]
  { Framework := nodeFramework deps
    Language := "nodejs"
    Port := 8080
    HasDockerfile := docker.2
    Dockerfile := docker.1
    BuildCmd := "npm run build"
    StartCmd := "npm start"
    EnvVars := envVars }

/-- Source `detectBackend`: Go probe, then Python, then Node. -/
def detectBackend (fs : FS) (root : String) : Option TechStack :=
  if fileExists fs (joinPath root "go.mod") = true then
    some (detectGoBackend fs root)
  else if fileExists fs (joinPath root "requirements.txt") = true then
    some (detectPythonBackend fs root)
  else if fileExists fs (joinPath root "pyproject.toml") = true then
    some (detectPythonBackend fs root)
  else
    match readFile fs (joinPath root "package.json") with
    | some content =>
      let deps := parseDependencies content
      if (hasDep deps "express" || hasDep deps "fastify"
          || hasDep deps "koa") = true then
        some (detectNodeBackend fs root deps)
      else none
    | none => none

/-! ## Monorepo scan (source `detectMonorepo`) -/

/-- Frontend candidate subdirectories, in source order. -/
def frontendDirs : List String := ["frontend", "web", "client", "ui"]

/-- Backend candidate subdirectories, in source order. -/
def backendDirs : List String := ["backend", "api", "server", "services"]

/-- One side of the monorepo scan loop: the first existing candidate whose
sub-detection succeeds wins; its Dockerfile path is prefixed with the
candidate directory name. -/
def scanSide (fs : FS) (root : String)
    (sub : FS → String → Option TechStack) : List String → Option TechStack
  | [] => none
  | dir :: rest =>
    if fileExists fs (joinPath root dir) = true then
      match sub fs (joinPath root dir) with
      | some t => some { t with Dockerfile := joinPath dir t.Dockerfile }
      | none => scanSide fs root sub rest
    else scanSide fs root sub rest

/-- Source `detectMonorepo`. -/
def detectMonorepo (fs : FS) (root : String) :
    Option TechStack × Option TechStack :=
  (scanSide fs root detectFrontend frontendDirs,
   scanSide fs root detectBackend backendDirs)

/-! ## Middleware detection (source `detectMiddleware`) -/

/-- Source `checkPrismaPostgres`. -/
def checkPrismaPostgres (fs : FS) (root : String) : Bool :=
  match readFile fs (joinPath root "prisma/schema.prisma") with
  | none => false
  | some content => goContains content "provider = \"postgresql\""

/-- Source `detectMiddleware`: package.json, go.mod, requirements.txt. -/
def detectMiddleware (fs : FS) (root : String) : Middleware :=
  let m0 : Middleware := {}
  let m1 :=
    match readFile fs (joinPath root "package.json") with
    | none => m0
    | some content =>
      let deps := parseDependencies content
      let ma :=
        if (hasDep deps "mongodb" || hasDep deps "mongoose"
            || hasDep deps "@prisma/client") = true
            ∧ checkPrismaPostgres fs root = false
        then { m0 with MongoDB := true } else m0
      let mb :=
        if (hasDep deps "redis" || hasDep deps "ioredis"
            || hasDep deps "@redis/client") = true
        then { ma with Redis := true } else ma
      if (hasDep deps "pg" || hasDep deps "postgres"
          || hasDep deps "prisma") = true
          ∧ checkPrismaPostgres fs root = true
      then { mb with Postgres := true } else mb
  let m2 :=
    match readFile fs (joinPath root "go.mod") with
    | none => m1
    | some content =>
      let ma :=
        if goContains content "go.mongodb.org/mongo-driver" = true
        then { m1 with MongoDB := true } else m1
      let mb :=
        if (goContains content "github.com/redis/go-redis"
            || goContains content "github.com/go-redis/redis") = true
        then { ma with Redis := true } else ma
      if (goContains content "github.com/lib/pq"
          || goContains content "github.com/jackc/pgx") = true
      then { mb with Postgres := true } else mb
  match readFile fs (joinPath root "requirements.txt") with
  | none => m2
  | some content =>
    let ma :=
      if (goContains content "pymongo" || goContains content "motor") = true
      then { m2 with MongoDB := true } else m2
    let mb :=
      if (goContains content "redis" || goContains content "aioredis") = true
      then { ma with Redis := true } else ma
    if (goContains content "psycopg2" || goContains content "asyncpg") = true
    then { mb with Postgres := true } else mb

/-! ## Top-level detection (source `Detect`) -/

/-- The root-level/monorepo stack resolution step of source `Detect`. -/
def detectStacks (fs : FS) (root : String) :
    Option TechStack × Option TechStack :=
  let frontend := detectFrontend fs root
  let backend := detectBackend fs root
  if frontend.isNone = true ∧ backend.isNone = true then
    detectMonorepo fs root
  else (frontend, backend)

/-- The project-type switch of source `Detect`. -/
def projTypeOf (frontend backend : Option TechStack) : ProjectType :=
  if frontend.isSome = true ∧ backend.isSome = true then .fullstack
  else if frontend.isSome = true then .frontend
  else if backend.isSome = true then .backend
  else .unknown

/-- The `Metadata` value built by source `Detect`. -/
def detectMeta (fs : FS) (root : String) : Metadata :=
  let stks := detectStacks fs root
  { Project :=
      { Name := baseName root
        Typ := projTypeOf stks.1 stks.2
        DetectedAt := timestamp }
    TechStack := { Frontend := stks.1, Backend := stks.2 }
    Middleware := detectMiddleware fs root
    Platform := {} }

/-- Source `Detect`: it has an error result type (`(*Metadata, error)` in
the source) but its single return statement always carries a nil error. -/
def Detect (fs : FS) (root : String) : Except String Metadata :=
  Except.ok (detectMeta fs root)

/-- Whether an `Except` result is a success. -/
def exceptIsOk : Except String Metadata → Bool
  | .ok _ => true
  | .error _ => false

/-! ## Spec-side reformulations used by the refinement claims -/

/-- The key that a single env-file line contributes, if any: trim the line,
skip blanks and comments, and take the trimmed part before the first `=`. -/
def envLineKey (raw : String) : Option String :=
  let line := goTrimSpace raw
  if line = "" ∨ goStartsWith line "#" = true then none
  else
    match goSplitN2 (Char.ofNat 61) line with
    | [p0, _p1] => some (goTrimSpace p0)
    | _ => none

/-- The fixed ordered frontend framework priority list from the spec. -/
def specFrameworkPriority : List (String × List String) :=
  [("nextjs", ["next"]), ("react", ["react", "react-dom"]),
   ("vue", ["vue"]), ("vite", ["vite"]), ("svelte", ["svelte"])]

/-- Spec reading of frontend framework choice: first priority entry one of
whose dependency names is declared. -/
def specFrontendFramework (deps : EnvMap) : Option String :=
  (specFrameworkPriority.find?
    (fun pr => pr.2.any (fun n => hasDep deps n))).map (fun pr => pr.1)

/-- A Dockerfile candidate passes when it exists, is readable and is
structurally valid. -/
def dockerCandidateOk (fs : FS) (root : String) (path : String) : Bool :=
  fileExists fs (joinPath root path)
    && (match readFile fs (joinPath root path) with
        | some content => isValidDockerfile content
        | none => false)

/-- Spec reading of Dockerfile lookup: the first passing candidate, or the
empty path with `false`. -/
def specFindDockerfile (fs : FS) (root : String) (paths : List String) :
    String × Bool :=
  match paths.find? (dockerCandidateOk fs root) with
  | some p => (p, true)
  | none => ("", false)

/-- Spec reading of one side of the monorepo scan: the first candidate
directory that exists and whose sub-detection succeeds wins; the winning
stack's Dockerfile path is prefixed with the directory name. -/
def specScanSide (fs : FS) (root : String)
    (sub : FS → String → Option TechStack) (dirs : List String) :
    Option TechStack :=
  match dirs.find? (fun dir => fileExists fs (joinPath root dir)
      && (sub fs (joinPath root dir)).isSome) with
  | none => none
  | some dir =>
    (sub fs (joinPath root dir)).map
      (fun t => { t with Dockerfile := joinPath dir t.Dockerfile })

/-! ## Basic lemmas -/

theorem readFile_fileExists {fs : FS} {p c : String}
    (h : readFile fs p = some c) : fileExists fs p = true := by
  unfold readFile at h
  unfold fileExists
  cases hf : fs.files.find? (fun f => f.1 == p) with
  | none => rw [hf] at h; simp at h
  | some f =>
    have hpred := List.find?_some hf
    have hmem := List.mem_of_find?_eq_some hf
    have : fs.files.any (fun f => f.1 == p) = true :=
      List.any_eq_true.mpr ⟨f, hmem, hpred⟩
    simp [this]

theorem lookupKV_insertKV_self (m : EnvMap) (k v : String) :
    lookupKV (insertKV m k v) k = some v := by
  induction m with
  | nil => simp [insertKV, lookupKV]
  | cons kv rest ih =>
    obtain ⟨k0, v0⟩ := kv
    by_cases h : k0 = k
    · simp [insertKV, lookupKV, h]
    · simp [insertKV, lookupKV, h, ih]

theorem lookupKV_insertKV_ne (m : EnvMap) (k0 k v : String) (hne : k0 ≠ k) :
    lookupKV (insertKV m k0 v) k = lookupKV m k := by
  induction m with
  | nil => simp [insertKV, lookupKV, hne]
  | cons kv rest ih =>
    obtain ⟨k1, v1⟩ := kv
    by_cases h : k1 = k0
    · subst h
      simp [insertKV, lookupKV, hne]
    · by_cases h2 : k1 = k
      · subst h2
        simp [insertKV, lookupKV, h, ih]
      · simp [insertKV, lookupKV, h, h2, ih]

theorem lookupKV_mem {m : EnvMap} {k v : String}
    (h : lookupKV m k = some v) : (k, v) ∈ m := by
  induction m with
  | nil => simp [lookupKV] at h
  | cons kv rest ih =>
    obtain ⟨k0, v0⟩ := kv
    by_cases he : k0 = k
    · subst he
      simp [lookupKV] at h
      subst h
      exact List.mem_cons_self _ _
    · simp [lookupKV, he] at h
      exact List.mem_cons_of_mem _ (ih h)

theorem insertKV_allvals {m : EnvMap} {k v0 : String}
    (h : ∀ kv ∈ m, kv.2 = v0) : ∀ kv ∈ insertKV m k v0, kv.2 = v0 := by
  induction m with
  | nil =>
    intro kv hkv
    simp [insertKV] at hkv
    subst hkv
    rfl
  | cons kv0 rest ih =>
    obtain ⟨k1, v1⟩ := kv0
    intro kv hkv
    by_cases he : k1 = k
    · simp [insertKV, he] at hkv
      rcases hkv with hkv | hkv
      · subst hkv; rfl
      · exact h kv (List.mem_cons_of_mem _ hkv)
    · simp [insertKV, he] at hkv
      rcases hkv with hkv | hkv
      · subst hkv
        exact h (k1, v1) (List.mem_cons_self _ _)
      · exact ih (fun x hx => h x (List.mem_cons_of_mem _ hx)) kv hkv

theorem foldl_preserve {α β : Type} (f : α → β → α) (P : α → Prop)
    (hstep : ∀ a b, P a → P (f a b)) :
    ∀ (l : List β) (a : α), P a → P (l.foldl f a) := by
  intro l
  induction l with
  | nil => intro a h; exact h
  | cons b rest ih => intro a h; exact ih (f a b) (hstep a b h)

theorem foldl_establish {α β : Type} (f : α → β → α) (P : α → Prop)
    (hstep : ∀ a b, P a → P (f a b)) (b0 : β) (hb0 : ∀ a, P (f a b0)) :
    ∀ (l : List β) (a : α), b0 ∈ l → P (l.foldl f a) := by
  intro l
  induction l with
  | nil => intro a h; cases h
  | cons b rest ih =>
    intro a hmem
    rcases List.mem_cons.mp hmem with he | hr
    · subst he
      exact foldl_preserve f P hstep rest (f a b0) (hb0 a)
    · exact ih (f a b) hr

/-! ## Dockerfile lookup lemmas -/

theorem findDockerfile_cons_notexist (fs : FS) (root p : String)
    (rest : List String) (hex : fileExists fs (joinPath root p) = false) :
    findDockerfile fs root (p :: rest) = findDockerfile fs root rest := by
  conv_lhs => rw [findDockerfile]
  rw [if_neg (by simp [hex])]

theorem findDockerfile_cons_noread (fs : FS) (root p : String)
    (rest : List String) (hex : fileExists fs (joinPath root p) = true)
    (hr : readFile fs (joinPath root p) = none) :
    findDockerfile fs root (p :: rest) = findDockerfile fs root rest := by
  conv_lhs => rw [findDockerfile]
  rw [if_pos hex, hr]

theorem findDockerfile_cons_invalid (fs : FS) (root p : String)
    (rest : List String) (content : String)
    (hex : fileExists fs (joinPath root p) = true)
    (hr : readFile fs (joinPath root p) = some content)
    (hv : isValidDockerfile content = false) :
    findDockerfile fs root (p :: rest) = findDockerfile fs root rest := by
  conv_lhs => rw [findDockerfile]
  rw [if_pos hex, hr]
  simp [hv]

theorem findDockerfile_cons_valid (fs : FS) (root p : String)
    (rest : List String) (content : String)
    (hex : fileExists fs (joinPath root p) = true)
    (hr : readFile fs (joinPath root p) = some content)
    (hv : isValidDockerfile content = true) :
    findDockerfile fs root (p :: rest) = (p, true) := by
  conv_lhs => rw [findDockerfile]
  rw [if_pos hex, hr]
  simp [hv]

theorem findDockerfile_shape (fs : FS) (root : String) :
    ∀ paths, findDockerfile fs root paths = ("", false) ∨
      (findDockerfile fs root paths).2 = true := by
  intro paths
  induction paths with
  | nil => left; rfl
  | cons p rest ih =>
    by_cases hex : fileExists fs (joinPath root p) = true
    · cases hr : readFile fs (joinPath root p) with
      | none => rw [findDockerfile_cons_noread fs root p rest hex hr]; exact ih
      | some content =>
        by_cases hv : isValidDockerfile content = true
        · right
          rw [findDockerfile_cons_valid fs root p rest content hex hr hv]
        · rw [findDockerfile_cons_invalid fs root p rest content hex hr
            (by simpa using hv)]
          exact ih
    · rw [findDockerfile_cons_notexist fs root p rest (by simpa using hex)]
      exact ih

theorem findDockerfile_eq_spec (fs : FS) (root : String) :
    ∀ paths, findDockerfile fs root paths = specFindDockerfile fs root paths := by
  intro paths
  induction paths with
  | nil => rfl
  | cons p rest ih =>
    by_cases hok : dockerCandidateOk fs root p = true
    · have hparts : fileExists fs (joinPath root p) = true ∧
          (match readFile fs (joinPath root p) with
           | some content => isValidDockerfile content
           | none => false) = true := by
        have h2 := hok
        unfold dockerCandidateOk at h2
        exact by simpa using h2
      have hex : fileExists fs (joinPath root p) = true := hparts.1
      cases hr : readFile fs (joinPath root p) with
      | none =>
        have h2 := hparts.2
        rw [hr] at h2
        simp at h2
      | some content =>
        have h2 := hparts.2
        rw [hr] at h2
        have hspec : specFindDockerfile fs root (p :: rest) = (p, true) := by
          unfold specFindDockerfile
          rw [List.find?_cons_of_pos _ hok]
        rw [hspec]
        exact findDockerfile_cons_valid fs root p rest content hex hr h2
    · have hspec : specFindDockerfile fs root (p :: rest) =
          specFindDockerfile fs root rest := by
        unfold specFindDockerfile
        rw [List.find?_cons_of_neg _ (by simp [hok])]
      rw [hspec, ← ih]
      by_cases hex : fileExists fs (joinPath root p) = true
      · cases hr : readFile fs (joinPath root p) with
        | none => exact findDockerfile_cons_noread fs root p rest hex hr
        | some content =>
          have hv : isValidDockerfile content = false := by
            by_contra hvv
            simp at hvv
            apply hok
            unfold dockerCandidateOk
            rw [hex, hr]
            simp [hvv]
          exact findDockerfile_cons_invalid fs root p rest content hex hr hv
      · exact findDockerfile_cons_notexist fs root p rest (by simpa using hex)

/-! ## Monorepo scan lemmas -/

theorem scanSide_cons_notexist (fs : FS) (root : String)
    (sub : FS → String → Option TechStack) (dir : String) (rest : List String)
    (hex : fileExists fs (joinPath root dir) = false) :
    scanSide fs root sub (dir :: rest) = scanSide fs root sub rest := by
  conv_lhs => rw [scanSide]
  rw [if_neg (by simp [hex])]

theorem scanSide_cons_none (fs : FS) (root : String)
    (sub : FS → String → Option TechStack) (dir : String) (rest : List String)
    (hex : fileExists fs (joinPath root dir) = true)
    (hs : sub fs (joinPath root dir) = none) :
    scanSide fs root sub (dir :: rest) = scanSide fs root sub rest := by
  conv_lhs => rw [scanSide]
  rw [if_pos hex, hs]

theorem scanSide_cons_some (fs : FS) (root : String)
    (sub : FS → String → Option TechStack) (dir : String) (rest : List String)
    (t : TechStack) (hex : fileExists fs (joinPath root dir) = true)
    (hs : sub fs (joinPath root dir) = some t) :
    scanSide fs root sub (dir :: rest) =
      some { t with Dockerfile := joinPath dir t.Dockerfile } := by
  conv_lhs => rw [scanSide]
  rw [if_pos hex, hs]

theorem scanSide_eq_spec (fs : FS) (root : String)
    (sub : FS → String → Option TechStack) :
    ∀ dirs, scanSide fs root sub dirs = specScanSide fs root sub dirs := by
  intro dirs
  induction dirs with
  | nil => rfl
  | cons dir rest ih =>
    by_cases hex : fileExists fs (joinPath root dir) = true
    · cases hs : sub fs (joinPath root dir) with
      | some t =>
        rw [scanSide_cons_some fs root sub dir rest t hex hs]
        unfold specScanSide
        rw [List.find?_cons_of_pos _ (by simp [hex, hs])]
        simp [hs]
      | none =>
        rw [scanSide_cons_none fs root sub dir rest hex hs, ih]
        unfold specScanSide
        rw [List.find?_cons_of_neg _ (by simp [hs])]
    · rw [scanSide_cons_notexist fs root sub dir rest (by simpa using hex), ih]
      unfold specScanSide
      rw [List.find?_cons_of_neg _ (by simp [hex])]

theorem scanSide_bare (fs : FS) (root : String)
    (sub : FS → String → Option TechStack)
    (hsub : ∀ r t, sub fs r = some t → t.HasDockerfile = false →
      t.Dockerfile = "") :
    ∀ dirs t, scanSide fs root sub dirs = some t → t.HasDockerfile = false →
      t.Dockerfile ∈ dirs := by
  intro dirs
  induction dirs with
  | nil => intro t h; cases h
  | cons dir rest ih =>
    intro t h hd
    by_cases hex : fileExists fs (joinPath root dir) = true
    · cases hs : sub fs (joinPath root dir) with
      | some t0 =>
        rw [scanSide_cons_some fs root sub dir rest t0 hex hs] at h
        have ht := Option.some.inj h
        have hd0 : t0.HasDockerfile = false := by
          rw [← hd, ← ht]
        have hempty : t0.Dockerfile = "" := hsub _ t0 hs hd0
        have : t.Dockerfile = dir := by
          rw [← ht]
          show joinPath dir t0.Dockerfile = dir
          rw [hempty]
          unfold joinPath
          by_cases hdir : dir = "" <;> simp [hdir]
        rw [this]
        exact List.mem_cons_self _ _
      | none =>
        rw [scanSide_cons_none fs root sub dir rest hex hs] at h
        exact List.mem_cons_of_mem _ (ih t h hd)
    · rw [scanSide_cons_notexist fs root sub dir rest (by simpa using hex)] at h
      exact List.mem_cons_of_mem _ (ih t h hd)

/-! ## Sub-detector shape lemmas -/

theorem detectFrontend_some_fields (fs : FS) (root : String) (t : TechStack)
    (h : detectFrontend fs root = some t) :
    ∃ content, readFile fs (joinPath root "package.json") = some content ∧
    ∃ fw, frontendChoice (parseDependencies content) = some fw ∧
      t.Framework = fw.1 ∧
      t.HasDockerfile = (findDockerfile fs root
        ["frontend/Dockerfile", "Dockerfile", "Dockerfile.frontend"]).2 ∧
      t.Dockerfile = (findDockerfile fs root
        ["frontend/Dockerfile", "Dockerfile", "Dockerfile.frontend"]).1 := by
  unfold detectFrontend at h
  by_cases hex : fileExists fs (joinPath root "package.json") = false
  · rw [if_pos hex] at h; cases h
  · rw [if_neg hex] at h
    cases hr : readFile fs (joinPath root "package.json") with
    | none =>
      simp only [hr] at h
      cases h
    | some content =>
      simp only [hr] at h
      cases hc : frontendChoice (parseDependencies content) with
      | none =>
        simp only [hc] at h
        cases h
      | some fw =>
        simp only [hc] at h
        have ht := Option.some.inj h
        refine ⟨content, rfl, fw, hc, ?_, ?_, ?_⟩ <;> rw [← ht]

theorem detectFrontend_dockerfile_inv (fs : FS) (root : String) (t : TechStack)
    (h : detectFrontend fs root = some t) (hd : t.HasDockerfile = false) :
    t.Dockerfile = "" := by
  obtain ⟨content, -, fw, -, -, hhd, hdf⟩ := detectFrontend_some_fields fs root t h
  rcases findDockerfile_shape fs root
      ["frontend/Dockerfile", "Dockerfile", "Dockerfile.frontend"] with hsh | hsh
  · rw [hdf, hsh]
  · rw [← hhd, hd] at hsh
    cases hsh

theorem detectGoBackend_dockerfile_inv (fs : FS) (root : String)
    (hd : (detectGoBackend fs root).HasDockerfile = false) :
    (detectGoBackend fs root).Dockerfile = "" := by
  have hd2 : (findDockerfile fs root
      ["backend/Dockerfile", "Dockerfile", "Dockerfile.backend"]).2 = false := hd
  rcases findDockerfile_shape fs root
      ["backend/Dockerfile", "Dockerfile", "Dockerfile.backend"] with hsh | hsh
  · show (findDockerfile fs root
      ["backend/Dockerfile", "Dockerfile", "Dockerfile.backend"]).1 = ""
    rw [hsh]
  · rw [hd2] at hsh
    cases hsh

theorem detectPythonBackend_dockerfile_inv (fs : FS) (root : String)
    (hd : (detectPythonBackend fs root).HasDockerfile = false) :
    (detectPythonBackend fs root).Dockerfile = "" := by
  have hd2 : (findDockerfile fs root
      ["backend/Dockerfile", "Dockerfile"]).2 = false := hd
  rcases findDockerfile_shape fs root
      ["backend/Dockerfile", "Dockerfile"] with hsh | hsh
  · show (findDockerfile fs root ["backend/Dockerfile", "Dockerfile"]).1 = ""
    rw [hsh]
  · rw [hd2] at hsh
    cases hsh

theorem detectNodeBackend_dockerfile_inv (fs : FS) (root : String)
    (deps : EnvMap)
    (hd : (detectNodeBackend fs root deps).HasDockerfile = false) :
    (detectNodeBackend fs root deps).Dockerfile = "" := by
  have hd2 : (findDockerfile fs root
      ["backend/Dockerfile", "api/Dockerfile", "Dockerfile"]).2 = false := hd
  rcases findDockerfile_shape fs root
      ["backend/Dockerfile", "api/Dockerfile", "Dockerfile"] with hsh | hsh
  · show (findDockerfile fs root
      ["backend/Dockerfile", "api/Dockerfile", "Dockerfile"]).1 = ""
    rw [hsh]
  · rw [hd2] at hsh
    cases hsh

theorem detectBackend_dockerfile_inv (fs : FS) (root : String) (t : TechStack)
    (h : detectBackend fs root = some t) (hd : t.HasDockerfile = false) :
    t.Dockerfile = "" := by
  unfold detectBackend at h
  by_cases h1 : fileExists fs (joinPath root "go.mod") = true
  · rw [if_pos h1] at h
    have ht := Option.some.inj h
    rw [← ht] at hd ⊢
    exact detectGoBackend_dockerfile_inv fs root hd
  · rw [if_neg h1] at h
    by_cases h2 : fileExists fs (joinPath root "requirements.txt") = true
    · rw [if_pos h2] at h
      have ht := Option.some.inj h
      rw [← ht] at hd ⊢
      exact detectPythonBackend_dockerfile_inv fs root hd
    · rw [if_neg h2] at h
      by_cases h3 : fileExists fs (joinPath root "pyproject.toml") = true
      · rw [if_pos h3] at h
        have ht := Option.some.inj h
        rw [← ht] at hd ⊢
        exact detectPythonBackend_dockerfile_inv fs root hd
      · rw [if_neg h3] at h
        cases hr : readFile fs (joinPath root "package.json") with
        | none =>
          simp only [hr] at h
          cases h
        | some content =>
          simp only [hr] at h
          by_cases h4 : (hasDep (parseDependencies content) "express"
              || hasDep (parseDependencies content) "fastify"
              || hasDep (parseDependencies content) "koa") = true
          · rw [if_pos h4] at h
            have ht := Option.some.inj h
            rw [← ht] at hd ⊢
            exact detectNodeBackend_dockerfile_inv fs root _ hd
          · rw [if_neg h4] at h
            cases h

/-! ## Env harvesting lemmas -/

theorem processEnvLine_eq (m : EnvMap) (raw : String) :
    processEnvLine m raw =
      match envLineKey raw with
      | none => m
      | some key =>
        if sensitiveKey key = false then insertKV m key "[VALUE]" else m := by
  unfold processEnvLine envLineKey
  by_cases h1 : goTrimSpace raw = "" ∨ goStartsWith (goTrimSpace raw) "#" = true
  · simp only [if_pos h1]
  · simp only [if_neg h1]
    cases hsp : goSplitN2 (Char.ofNat 61) (goTrimSpace raw) with
    | nil => rfl
    | cons p0 rest =>
      cases rest with
      | nil => rfl
      | cons p1 rest2 =>
        cases rest2 with
        | nil => rfl
        | cons p2 rest3 => rfl

theorem processEnvLine_sensitive_lookup (m : EnvMap) (raw key : String)
    (hsens : sensitiveKey key = true) :
    lookupKV (processEnvLine m raw) key = lookupKV m key := by
  rw [processEnvLine_eq]
  cases envLineKey raw with
  | none => rfl
  | some k =>
    by_cases hs : sensitiveKey k = false
    · simp only [if_pos hs]
      apply lookupKV_insertKV_ne
      intro he
      rw [he, hsens] at hs
      cases hs
    · simp only [if_neg hs]

theorem processEnvLine_allvals {m : EnvMap} (raw : String)
    (h : ∀ kv ∈ m, kv.2 = "[VALUE]") :
    ∀ kv ∈ processEnvLine m raw, kv.2 = "[VALUE]" := by
  rw [processEnvLine_eq]
  cases envLineKey raw with
  | none => exact h
  | some k =>
    by_cases hs : sensitiveKey k = false
    · simp only [if_pos hs]
      exact insertKV_allvals h
    · simp only [if_neg hs]
      exact h

theorem processEnvLine_mono (m : EnvMap) (raw key : String)
    (h : lookupKV m key = some "[VALUE]") :
    lookupKV (processEnvLine m raw) key = some "[VALUE]" := by
  rw [processEnvLine_eq]
  cases envLineKey raw with
  | none => exact h
  | some k =>
    by_cases hs : sensitiveKey k = false
    · simp only [if_pos hs]
      by_cases he : k = key
      · subst he
        exact lookupKV_insertKV_self m k "[VALUE]"
      · rw [lookupKV_insertKV_ne m k key _ he]
        exact h
    · simp only [if_neg hs]
      exact h

theorem processEnvLine_sets (m : EnvMap) (raw key : String)
    (hk : envLineKey raw = some key) (hs : sensitiveKey key = false) :
    lookupKV (processEnvLine m raw) key = some "[VALUE]" := by
  rw [processEnvLine_eq, hk]
  simp only [if_pos hs]
  exact lookupKV_insertKV_self m key "[VALUE]"

/-! ## Project-type and stack-resolution lemmas -/

theorem projTypeOf_iff (f b : Option TechStack) :
    (projTypeOf f b = ProjectType.fullstack ↔ (f.isSome = true ∧ b.isSome = true))
  ∧ (projTypeOf f b = ProjectType.frontend ↔ (f.isSome = true ∧ b = none))
  ∧ (projTypeOf f b = ProjectType.backend ↔ (f = none ∧ b.isSome = true))
  ∧ (projTypeOf f b = ProjectType.unknown ↔ (f = none ∧ b = none)) := by
  cases f <;> cases b <;> simp [projTypeOf]

theorem detectStacks_monorepo (fs : FS) (root : String)
    (hf : detectFrontend fs root = none) (hb : detectBackend fs root = none) :
    detectStacks fs root = detectMonorepo fs root := by
  simp only [detectStacks, hf, hb]
  simp

theorem detectStacks_root (fs : FS) (root : String)
    (h : ¬(detectFrontend fs root = none ∧ detectBackend fs root = none)) :
    detectStacks fs root = (detectFrontend fs root, detectBackend fs root) := by
  have hc : ¬((detectFrontend fs root).isNone = true ∧
      (detectBackend fs root).isNone = true) := by
    simpa [Option.isNone_iff_eq_none] using h
  simp only [detectStacks]
  rw [if_neg hc]

theorem detectMeta_fields (fs : FS) (root : String) :
    (detectMeta fs root).Project.Typ =
      projTypeOf (detectStacks fs root).1 (detectStacks fs root).2
  ∧ (detectMeta fs root).TechStack.Frontend = (detectStacks fs root).1
  ∧ (detectMeta fs root).TechStack.Backend = (detectStacks fs root).2
  ∧ (detectMeta fs root).Middleware = detectMiddleware fs root :=
  ⟨rfl, rfl, rfl, rfl⟩

/-! ## Frontend priority lemma -/

theorem frontendChoice_eq_spec (deps : EnvMap) :
    (frontendChoice deps).map (fun fw => fw.1) = specFrontendFramework deps := by
  unfold frontendChoice specFrontendFramework specFrameworkPriority
  by_cases h1 : hasDep deps "next" = true
  <;> by_cases h2 : hasDep deps "react" = true
  <;> by_cases h3 : hasDep deps "react-dom" = true
  <;> by_cases h4 : hasDep deps "vue" = true
  <;> by_cases h5 : hasDep deps "vite" = true
  <;> by_cases h6 : hasDep deps "svelte" = true
  <;> simp_all [List.find?]

/-! ## Middleware closed form -/

theorem detectMiddleware_pkg_closed (fs : FS) (root : String) (content : String)
    (hread : readFile fs (joinPath root "package.json") = some content)
    (hgomod : readFile fs (joinPath root "go.mod") = none)
    (hreq : readFile fs (joinPath root "requirements.txt") = none) :
    detectMiddleware fs root =
      { MongoDB := ((hasDep (parseDependencies content) "mongodb"
            || hasDep (parseDependencies content) "mongoose"
            || hasDep (parseDependencies content) "@prisma/client")
            && !(checkPrismaPostgres fs root))
        Redis := (hasDep (parseDependencies content) "redis"
            || hasDep (parseDependencies content) "ioredis"
            || hasDep (parseDependencies content) "@redis/client")
        Postgres := ((hasDep (parseDependencies content) "pg"
            || hasDep (parseDependencies content) "postgres"
            || hasDep (parseDependencies content) "prisma")
            && checkPrismaPostgres fs root)
        MySQL := false } := by
  unfold detectMiddleware
  simp only [hread, hgomod, hreq]
  by_cases hA : (hasDep (parseDependencies content) "mongodb"
      || hasDep (parseDependencies content) "mongoose"
      || hasDep (parseDependencies content) "@prisma/client") = true
  <;> by_cases hB : checkPrismaPostgres fs root = true
  <;> by_cases hC : (hasDep (parseDependencies content) "redis"
      || hasDep (parseDependencies content) "ioredis"
      || hasDep (parseDependencies content) "@redis/client") = true
  <;> by_cases hD : (hasDep (parseDependencies content) "pg"
      || hasDep (parseDependencies content) "postgres"
      || hasDep (parseDependencies content) "prisma") = true
  <;> simp_all [Bool.not_eq_true]

/-! ## detectEnvVars-level lemmas -/

theorem scanEnvFile_preserve (P : EnvMap → Prop)
    (hstep : ∀ m raw, P m → P (processEnvLine m raw)) (content : String)
    (m : EnvMap) (h : P m) : P (scanEnvFile m content) :=
  foldl_preserve processEnvLine P (fun a b ha => hstep a b ha)
    (goSplitChar nlChar content) m h

theorem detectEnvVars_preserve (fs : FS) (root : String) (P : EnvMap → Prop)
    (hstep : ∀ m raw, P m → P (processEnvLine m raw)) (paths : List String)
    (hinit : P []) : P (detectEnvVars fs root paths) := by
  unfold detectEnvVars
  refine foldl_preserve _ P ?_ paths [] hinit
  intro a p ha
  cases readFile fs (joinPath root p) with
  | none => exact ha
  | some content => exact scanEnvFile_preserve P hstep content a ha

theorem detectEnvVars_sensitive (fs : FS) (root : String)
    (paths : List String) (key : String) (hsens : sensitiveKey key = true) :
    lookupKV (detectEnvVars fs root paths) key = none := by
  refine detectEnvVars_preserve fs root
    (fun m => lookupKV m key = none) ?_ paths rfl
  intro m raw hm
  rw [processEnvLine_sensitive_lookup m raw key hsens]
  exact hm

theorem detectEnvVars_allvals (fs : FS) (root : String)
    (paths : List String) :
    ∀ kv ∈ detectEnvVars fs root paths, kv.2 = "[VALUE]" := by
  refine detectEnvVars_preserve fs root
    (fun m => ∀ kv ∈ m, kv.2 = "[VALUE]") ?_ paths (by intro kv h; cases h)
  intro m raw hm
  exact processEnvLine_allvals raw hm

theorem detectEnvVars_contrib (fs : FS) (root : String)
    (paths : List String) (key : String) (hsens : sensitiveKey key = false)
    (p : String) (hp : p ∈ paths) (content : String)
    (hread : readFile fs (joinPath root p) = some content)
    (raw : String) (hraw : raw ∈ goSplitChar nlChar content)
    (hkey : envLineKey raw = some key) :
    lookupKV (detectEnvVars fs root paths) key = some "[VALUE]" := by
  unfold detectEnvVars
  refine foldl_establish _ (fun m => lookupKV m key = some "[VALUE]")
    ?_ p ?_ paths [] hp
  · intro a q ha
    cases readFile fs (joinPath root q) with
    | none => exact ha
    | some c =>
      exact scanEnvFile_preserve (fun m => lookupKV m key = some "[VALUE]")
        (fun m raw2 hm => processEnvLine_mono m raw2 key hm) c a ha
  · intro a
    show lookupKV (match readFile fs (joinPath root p) with
      | none => a | some c => scanEnvFile a c) key = some "[VALUE]"
    rw [hread]
    unfold scanEnvFile
    refine foldl_establish processEnvLine
      (fun m => lookupKV m key = some "[VALUE]")
      (fun m raw2 hm => processEnvLine_mono m raw2 key hm) raw ?_
      (goSplitChar nlChar content) a hraw
    intro m
    exact processEnvLine_sets m raw key hkey hsens

/-! ## Example filesystems used in counterexamples and witnesses -/

/-- The empty filesystem. -/
def emptyFS : FS := ⟨[], []⟩

/-- A package manifest declaring `next` and `react`. -/
def pkgNextReact : String :=
  "\x7b\n \"dependencies\": \x7b\n  \"next\": \"14.0.0\",\n  \"react\": \"18.2.0\"\n \x7d\n\x7d"

/-- A project with the `next`+`react` manifest at its root. -/
def nextReactFS : FS := ⟨[("package.json", pkgNextReact)], []⟩

/-- A package manifest declaring only the Prisma ORM client. -/
def prismaClientPkg : String :=
  "\x7b\n \"dependencies\": \x7b\n  \"@prisma/client\": \"5.0.0\"\n \x7d\n\x7d"

/-- A Prisma schema declaring the postgresql provider. -/
def pgSchema : String :=
  "datasource db \x7b\n  provider = \"postgresql\"\n\x7d"

/-- A project declaring only `@prisma/client` plus a postgresql schema. -/
def prismaCexFS : FS :=
  ⟨[("package.json", prismaClientPkg), ("prisma/schema.prisma", pgSchema)], []⟩

/-- A package manifest declaring `@prisma/client` and the `prisma` package
(the conventional Prisma setup). -/
def prismaFullPkg : String :=
  "\x7b\n \"dependencies\": \x7b\n  \"@prisma/client\": \"5.0.0\"\n \x7d,\n \"devDependencies\": \x7b\n  \"prisma\": \"5.0.0\"\n \x7d\n\x7d"

/-- The conventional Prisma project with a postgresql schema. -/
def prismaFullFS : FS :=
  ⟨[("package.json", prismaFullPkg), ("prisma/schema.prisma", pgSchema)], []⟩

/-- A package manifest declaring the dedicated MongoDB driver. -/
def mongoPkg : String :=
  "\x7b\n \"dependencies\": \x7b\n  \"mongodb\": \"6.0.0\"\n \x7d\n\x7d"

/-- A project declaring `mongodb` next to a postgresql Prisma schema. -/
def mongoPgFS : FS :=
  ⟨[("package.json", mongoPkg), ("prisma/schema.prisma", pgSchema)], []⟩

/-- An env file with one secret-named key and one plain key. -/
def envExampleFS : FS :=
  ⟨[(".env", "API_SECRET_KEY=abc123\nPORT=8080")], []⟩

/-- A Dockerfile whose FROM occurs in a comment but that has a CMD. -/
def commentDockerFS : FS :=
  ⟨[("Dockerfile", "# FROM golang:1.22\nCMD npm start")], []⟩

/-- A Dockerfile containing only a commented-out FROM line. -/
def commentOnlyFS : FS :=
  ⟨[("Dockerfile", "# FROM golang:1.22")], []⟩

/-- A monorepo with a Go backend subdirectory and no Dockerfile. -/
def monoExampleFS : FS :=
  ⟨[("backend/go.mod", "module example.com/m")], ["backend"]⟩

/-- The stack detected for `monoExampleFS`. -/
def monoGoStack : TechStack :=
  { Framework := "gin"
    Language := "go"
    Version := "1.22"
    Port := 8080
    HasDockerfile := false
    Dockerfile := "backend"
    BuildCmd := "go build -o bin/server ./cmd/server"
    StartCmd := "./bin/server"
    EnvVars := [] }

/-- A dependency map declaring all three Node server frameworks. -/
def nodeDepsExample : EnvMap :=
  [("express", "4.18.0"), ("koa", "2.15.0"), ("fastify", "4.26.0")]

/-! ## Claims -/

/-- C1 (counterexample): the claim "Detect returns an error iff the root
directory is unreadable" is false: on the empty filesystem the root path
"/missing" cannot be statted, yet `Detect` succeeds. -/
theorem detect_error_iff_unreadable_cex :
    fileExists emptyFS "/missing" = false
  ∧ exceptIsOk (Detect emptyFS "/missing") = true := ⟨rfl, rfl⟩

/-- C1 (amended): `Detect` never returns an error, for any filesystem and
any root path; it always returns the fully built `Metadata`. -/
theorem detect_never_errors (fs : FS) (root : String) :
    Detect fs root = Except.ok (detectMeta fs root)
  ∧ exceptIsOk (Detect fs root) = true := ⟨rfl, rfl⟩

/-- C2: the project type of the returned metadata is fullstack iff both
stacks are non-nil, frontend iff only the frontend stack is, backend iff
only the backend stack is, and unknown iff both are nil. -/
theorem detect_type_invariant (fs : FS) (root : String) :
    ((detectMeta fs root).Project.Typ = ProjectType.fullstack ↔
      ((detectMeta fs root).TechStack.Frontend.isSome = true ∧
       (detectMeta fs root).TechStack.Backend.isSome = true))
  ∧ ((detectMeta fs root).Project.Typ = ProjectType.frontend ↔
      ((detectMeta fs root).TechStack.Frontend.isSome = true ∧
       (detectMeta fs root).TechStack.Backend = none))
  ∧ ((detectMeta fs root).Project.Typ = ProjectType.backend ↔
      ((detectMeta fs root).TechStack.Frontend = none ∧
       (detectMeta fs root).TechStack.Backend.isSome = true))
  ∧ ((detectMeta fs root).Project.Typ = ProjectType.unknown ↔
      ((detectMeta fs root).TechStack.Frontend = none ∧
       (detectMeta fs root).TechStack.Backend = none)) :=
  projTypeOf_iff (detectStacks fs root).1 (detectStacks fs root).2

/-- C3: when both root-level detections return nothing, the metadata's
stacks come from the monorepo scan, which per side takes the first existing
candidate directory (frontend, web, client, ui resp. backend, api, server,
services, in order) whose sub-detection succeeds and prefixes the winning
stack's Dockerfile path with the directory name; when either root-level
detection succeeded the monorepo scan result is not used. -/
theorem detect_monorepo_scan (fs : FS) (root : String) :
    (detectFrontend fs root = none ∧ detectBackend fs root = none →
      (detectMeta fs root).TechStack.Frontend =
          specScanSide fs root detectFrontend frontendDirs ∧
      (detectMeta fs root).TechStack.Backend =
          specScanSide fs root detectBackend backendDirs)
  ∧ (¬(detectFrontend fs root = none ∧ detectBackend fs root = none) →
      (detectMeta fs root).TechStack.Frontend = detectFrontend fs root ∧
      (detectMeta fs root).TechStack.Backend = detectBackend fs root) := by
  constructor
  · rintro ⟨hf, hb⟩
    have hm := detectStacks_monorepo fs root hf hb
    constructor
    · show (detectStacks fs root).1 = _
      rw [hm]
      exact scanSide_eq_spec fs root detectFrontend frontendDirs
    · show (detectStacks fs root).2 = _
      rw [hm]
      exact scanSide_eq_spec fs root detectBackend backendDirs
  · intro h
    have hr := detectStacks_root fs root h
    constructor
    · show (detectStacks fs root).1 = _
      rw [hr]
    · show (detectStacks fs root).2 = _
      rw [hr]

/-- C3 (witness): the monorepo example has no root-level detection and its
metadata stacks equal the first-match scan results. -/
theorem detect_monorepo_scan_witness :
    (detectMeta monoExampleFS "").TechStack.Frontend =
        specScanSide monoExampleFS "" detectFrontend frontendDirs
  ∧ (detectMeta monoExampleFS "").TechStack.Backend =
        specScanSide monoExampleFS "" detectBackend backendDirs :=
  (detect_monorepo_scan monoExampleFS "").1 ⟨by decide, by decide⟩

/-- C4 (counterexample): a manifest declaring only the Prisma ORM client
`@prisma/client`, next to a schema declaring the postgresql provider,
yields `Postgres = false` — the claim asserts `Postgres = true`.  The
Postgres branch only fires for a dependency key equal to or starting with
"pg", "postgres" or "prisma", and "@prisma/client" starts with "@". -/
theorem prisma_postgres_cex :
    hasDep (parseDependencies prismaClientPkg) "@prisma/client" = true
  ∧ checkPrismaPostgres prismaCexFS "" = true
  ∧ (detectMiddleware prismaCexFS "").Postgres = false
  ∧ (detectMiddleware prismaCexFS "").MongoDB = false := by decide

/-- C4 (amended): for a manifest declaring `@prisma/client`, with no other
middleware manifests present: if a schema declares the postgresql provider
AND the manifest also declares a dependency matching "pg", "postgres" or
"prisma" (as the conventional Prisma setup does), then `Postgres = true`
and `MongoDB = false`; if no schema declares it, `MongoDB = true` and
`Postgres = false`. -/
theorem prisma_disambiguation (fs : FS) (root : String) (content : String)
    (hread : readFile fs (joinPath root "package.json") = some content)
    (hclient : hasDep (parseDependencies content) "@prisma/client" = true)
    (hgomod : readFile fs (joinPath root "go.mod") = none)
    (hreq : readFile fs (joinPath root "requirements.txt") = none) :
    (checkPrismaPostgres fs root = true →
      (hasDep (parseDependencies content) "pg"
        || hasDep (parseDependencies content) "postgres"
        || hasDep (parseDependencies content) "prisma") = true →
      ((detectMiddleware fs root).Postgres = true ∧
       (detectMiddleware fs root).MongoDB = false))
  ∧ (checkPrismaPostgres fs root = false →
      ((detectMiddleware fs root).MongoDB = true ∧
       (detectMiddleware fs root).Postgres = false)) := by
  have hclosed := detectMiddleware_pkg_closed fs root content hread hgomod hreq
  constructor
  · intro hpg hdep
    rw [hclosed]
    simp [hpg, hdep]
  · intro hpg
    rw [hclosed]
    simp [hpg, hclient]

/-- C4 (witness): the conventional Prisma setup with a postgresql schema
gives `Postgres = true` and `MongoDB = false`. -/
theorem prisma_disambiguation_witness :
    (detectMiddleware prismaFullFS "").Postgres = true
  ∧ (detectMiddleware prismaFullFS "").MongoDB = false :=
  (prisma_disambiguation prismaFullFS "" prismaFullPkg (by decide) (by decide)
    (by decide) (by decide)).1 (by decide) (by decide)

/-- C5: a key whose lowercased form contains "secret", "password" or "key"
never appears in the harvested env map; every value stored in the map is
the fixed placeholder "[VALUE]"; and every non-blank, non-comment
`KEY=VALUE` line of a readable candidate file contributes its key, mapped
to the placeholder, when the key is not sensitive. -/
theorem envvars_redaction (fs : FS) (root : String) (paths : List String)
    (key : String) :
    (sensitiveKey key = true →
      lookupKV (detectEnvVars fs root paths) key = none)
  ∧ (∀ v, lookupKV (detectEnvVars fs root paths) key = some v →
      v = "[VALUE]")
  ∧ ((sensitiveKey key = false ∧ ∃ p, p ∈ paths ∧ ∃ content,
        readFile fs (joinPath root p) = some content ∧ ∃ raw,
          raw ∈ goSplitChar nlChar content ∧ envLineKey raw = some key) →
      lookupKV (detectEnvVars fs root paths) key = some "[VALUE]") := by
  refine ⟨?_, ?_, ?_⟩
  · intro h
    exact detectEnvVars_sensitive fs root paths key h
  · intro v hv
    exact detectEnvVars_allvals fs root paths (key, v) (lookupKV_mem hv)
  · rintro ⟨hs, p, hp, content, hread, raw, hraw, hkey⟩
    exact detectEnvVars_contrib fs root paths key hs p hp content hread
      raw hraw hkey

/-- C5 (witness): a file with lines `API_SECRET_KEY=abc123` and `PORT=8080`
yields PORT mapped to the placeholder and no API_SECRET_KEY entry. -/
theorem envvars_redaction_witness :
    lookupKV (detectEnvVars envExampleFS "" ["backend/.env", ".env"])
      "PORT" = some "[VALUE]"
  ∧ lookupKV (detectEnvVars envExampleFS "" ["backend/.env", ".env"])
      "API_SECRET_KEY" = none :=
  ⟨(envvars_redaction envExampleFS "" ["backend/.env", ".env"] "PORT").2.2
      ⟨by decide, ".env", by decide, "API_SECRET_KEY=abc123\nPORT=8080",
       by decide, "PORT=8080", by decide, by decide⟩,
   (envvars_redaction envExampleFS "" ["backend/.env", ".env"]
      "API_SECRET_KEY").1 (by decide)⟩

/-- C6: the frontend framework switch agrees with the spec's fixed ordered
priority list (next, then react/react-dom, then vue, then vite, then
svelte) with first match winning; in particular a manifest declaring both
`next` and `react` classifies as "nextjs", and any detected frontend
stack's framework equals the priority-list choice for its manifest. -/
theorem frontend_framework_priority (fs : FS) (root : String)
    (deps : EnvMap) :
    ((frontendChoice deps).map (fun fw => fw.1) = specFrontendFramework deps)
  ∧ (hasDep deps "next" = true → hasDep deps "react" = true →
      specFrontendFramework deps = some "nextjs")
  ∧ (∀ content t, readFile fs (joinPath root "package.json") = some content →
      detectFrontend fs root = some t →
      specFrontendFramework (parseDependencies content) = some t.Framework) := by
  refine ⟨frontendChoice_eq_spec deps, ?_, ?_⟩
  · intro h1 _h2
    rw [← frontendChoice_eq_spec deps]
    unfold frontendChoice
    rw [if_pos h1]
    rfl
  · intro content t hread hdet
    obtain ⟨c2, hr2, fw, hc, hfw, -, -⟩ :=
      detectFrontend_some_fields fs root t hdet
    rw [hread] at hr2
    have hc2 : content = c2 := Option.some.inj hr2
    have hcc : frontendChoice (parseDependencies content) = some fw := by
      rw [hc2]
      exact hc
    rw [← frontendChoice_eq_spec (parseDependencies content), hcc]
    simp [hfw]

/-- C6 (witness): the `next`+`react` manifest classifies as "nextjs". -/
theorem frontend_framework_priority_witness :
    specFrontendFramework (parseDependencies pkgNextReact) = some "nextjs" :=
  (frontend_framework_priority nextReactFS ""
    (parseDependencies pkgNextReact)).2.1 (by decide) (by decide)

/-- C7: Dockerfile lookup returns the first candidate path that exists,
is readable and passes the shallow substring check (contains "FROM" and at
least one of "EXPOSE", "CMD", "ENTRYPOINT"); if no candidate passes, the
result is the empty path with `false`. -/
theorem dockerfile_first_match (fs : FS) (root : String)
    (paths : List String) :
    (findDockerfile fs root paths = specFindDockerfile fs root paths)
  ∧ (∀ c : String, isValidDockerfile c = (goContains c "FROM"
      && (goContains c "EXPOSE" || goContains c "CMD"
          || goContains c "ENTRYPOINT")))
  ∧ ((∀ p ∈ paths, dockerCandidateOk fs root p = false) →
      findDockerfile fs root paths = ("", false)) := by
  refine ⟨findDockerfile_eq_spec fs root paths, fun c => rfl, ?_⟩
  intro hall
  rw [findDockerfile_eq_spec fs root paths]
  unfold specFindDockerfile
  have hnone : paths.find? (dockerCandidateOk fs root) = none := by
    rw [List.find?_eq_none]
    intro x hx
    simp [hall x hx]
  rw [hnone]

/-- C7 (witness): a file whose only "FROM" occurrence is in a comment still
matches the substring rule and (with a CMD) is accepted as the first valid
candidate; the same comment alone, lacking CMD/EXPOSE/ENTRYPOINT, leaves
the result empty with `false`. -/
theorem dockerfile_first_match_witness :
    findDockerfile commentDockerFS ""
      ["frontend/Dockerfile", "Dockerfile", "Dockerfile.frontend"] =
      ("Dockerfile", true)
  ∧ findDockerfile commentOnlyFS "" ["Dockerfile"] = ("", false) :=
  ⟨((dockerfile_first_match commentDockerFS ""
      ["frontend/Dockerfile", "Dockerfile", "Dockerfile.frontend"]).1).trans
      (by decide),
   (dockerfile_first_match commentOnlyFS "" ["Dockerfile"]).2.2 (by decide)⟩

/-- C8: a manifest declaring the dedicated MongoDB driver (`mongodb` or
`mongoose`), with a Prisma schema declaring the postgresql provider (and no
other middleware manifests), yields `MongoDB = false`: the schema check
suppresses the whole document-store dependency group. -/
theorem mongodb_suppressed_by_schema (fs : FS) (root : String)
    (content : String)
    (hread : readFile fs (joinPath root "package.json") = some content)
    (_hmongo : (hasDep (parseDependencies content) "mongodb"
        || hasDep (parseDependencies content) "mongoose") = true)
    (hpg : checkPrismaPostgres fs root = true)
    (hgomod : readFile fs (joinPath root "go.mod") = none)
    (hreq : readFile fs (joinPath root "requirements.txt") = none) :
    (detectMiddleware fs root).MongoDB = false := by
  rw [detectMiddleware_pkg_closed fs root content hread hgomod hreq]
  simp [hpg]

/-- C8 (witness): the `mongodb` manifest with a postgresql schema yields
`MongoDB = false`. -/
theorem mongodb_suppressed_by_schema_witness :
    (detectMiddleware mongoPgFS "").MongoDB = false :=
  mongodb_suppressed_by_schema mongoPgFS "" mongoPkg (by decide) (by decide)
    (by decide) (by decide) (by decide)

/-- C9: in the monorepo scan the subdirectory prefix is joined onto the
sub-detected Dockerfile path unconditionally, so a winner with no valid
Dockerfile reports the bare candidate directory name (a non-empty path)
while `HasDockerfile` stays false. -/
theorem monorepo_bare_dockerfile (fs : FS) (root : String) (t : TechStack) :
    ((detectMonorepo fs root).1 = some t → t.HasDockerfile = false →
      t.Dockerfile ∈ frontendDirs ∧ t.Dockerfile ≠ "")
  ∧ ((detectMonorepo fs root).2 = some t → t.HasDockerfile = false →
      t.Dockerfile ∈ backendDirs ∧ t.Dockerfile ≠ "") := by
  constructor
  · intro h hd
    have hmem : t.Dockerfile ∈ frontendDirs :=
      scanSide_bare fs root detectFrontend
        (fun r t0 h0 hd0 => detectFrontend_dockerfile_inv fs r t0 h0 hd0)
        frontendDirs t h hd
    have hall : ∀ x ∈ frontendDirs, x ≠ "" := by decide
    exact ⟨hmem, hall _ hmem⟩
  · intro h hd
    have hmem : t.Dockerfile ∈ backendDirs :=
      scanSide_bare fs root detectBackend
        (fun r t0 h0 hd0 => detectBackend_dockerfile_inv fs r t0 h0 hd0)
        backendDirs t h hd
    have hall : ∀ x ∈ backendDirs, x ≠ "" := by decide
    exact ⟨hmem, hall _ hmem⟩

/-- C9 (witness): the Go monorepo example with no Dockerfile reports the
bare "backend" path with `HasDockerfile = false`. -/
theorem monorepo_bare_dockerfile_witness :
    monoGoStack.Dockerfile ∈ backendDirs ∧ monoGoStack.Dockerfile ≠ "" :=
  (monorepo_bare_dockerfile monoExampleFS "" monoGoStack).2
    (by decide) (by decide)

/-- C10: in Node backend classification, fastify takes precedence over koa
and both over express; "express" is the default exactly when neither
fastify nor koa is declared, and the detected stack's framework field is
this choice. -/
theorem node_backend_priority (deps : EnvMap) :
    (hasDep deps "fastify" = true → nodeFramework deps = "fastify")
  ∧ (hasDep deps "fastify" = false → hasDep deps "koa" = true →
      nodeFramework deps = "koa")
  ∧ (nodeFramework deps = "express" ↔
      (hasDep deps "fastify" = false ∧ hasDep deps "koa" = false))
  ∧ (∀ fs root, (detectNodeBackend fs root deps).Framework =
      nodeFramework deps) := by
  refine ⟨?_, ?_, ?_, fun fs root => rfl⟩
  · intro h
    unfold nodeFramework
    rw [if_pos h]
  · intro h1 h2
    unfold nodeFramework
    rw [if_neg (by simp [h1]), if_pos h2]
  · constructor
    · intro h
      by_cases h1 : hasDep deps "fastify" = true
      · exfalso
        unfold nodeFramework at h
        rw [if_pos h1] at h
        exact absurd h (by decide)
      · by_cases h2 : hasDep deps "koa" = true
        · exfalso
          unfold nodeFramework at h
          rw [if_neg h1, if_pos h2] at h
          exact absurd h (by decide)
        · exact ⟨by simpa using h1, by simpa using h2⟩
    · rintro ⟨h1, h2⟩
      unfold nodeFramework
      rw [if_neg (by simp [h1]), if_neg (by simp [h2])]

/-- C10 (witness): with all three server frameworks declared, fastify wins. -/
theorem node_backend_priority_witness :
    nodeFramework nodeDepsExample = "fastify" :=
  (node_backend_priority nodeDepsExample).1 (by decide)
